import Mathlib

/-!
Shallow embedding of the call-app repository's core subsystems:

* the call lifecycle coordinator and upload gate
  (`src/app/api/calls/route.ts`, `src/app/api/calls/[callId]/confirm-upload/route.ts`,
   `src/app/api/calls/[callId]/process/route.ts`, the join route, and
   `src/lib/services/callProcessing.ts`);
* the signaling relay (the Socket.IO server in `src/unnamed/part_000`);
* transcript assembly ordering (`src/lib/deepgram.ts`).

Database rows are modelled as Lean structures, the per-call database state as an
`Option Call`, route handlers as pure state transformers returning the new state
together with the HTTP-level outcome, and the external collaborators (S3,
audio merge, Deepgram) as a record of success flags plus result data.
-/

namespace CallApp

/-- Call status enum, from the prisma schema (`CallStatus`). -/
inductive CallStatus where
  | IN_PROGRESS
  | AWAITING_UPLOADS
  | PROCESSING
  | COMPLETED
  | FAILED
deriving DecidableEq

/-- Per-upload status enum (`TranscriptStatus` in the prisma schema,
used as `AudioUpload.status`). -/
inductive UploadStatus where
  | PENDING
  | PROCESSING
  | COMPLETED
  | FAILED
deriving DecidableEq

/-- A `CallParticipant` row: the user, their role (`"caller"` or `"callee"`),
and the leave timestamp (`none` while active). -/
structure CallParticipant where
  userId : String
  role : String
  leftAt : Option Nat
deriving DecidableEq

/-- An `AudioUpload` row for one (call, user) pair. -/
structure AudioUpload where
  userId : String
  filePath : String
  status : UploadStatus
deriving DecidableEq

/-- A `CallSummary` row (at most one per call, `CallSummary_callId_key`). -/
structure CallSummary where
  mergedTranscript : String
deriving DecidableEq

/-- A `Call` row together with its related rows. -/
structure Call where
  callId : String
  status : CallStatus
  mergedAudioPath : Option String
  participants : List CallParticipant
  audioUploads : List AudioUpload
  summary : Option CallSummary
deriving DecidableEq

/-- Outcome of POST `/api/calls/[callId]/confirm-upload`. -/
inductive ConfirmOutcome where
  | unauthorized
  | missingKey
  | notFound
  | forbidden
  | alreadyUploaded
  | ok (allParticipantsUploaded : Bool)
deriving DecidableEq

/-- Result of the confirm-upload route: the resulting database state, the
response outcome, and whether `processCall` was fire-and-forget triggered. -/
structure ConfirmResult where
  call : Option Call
  outcome : ConfirmOutcome
  processingTriggered : Bool
deriving DecidableEq

/-- POST `/api/calls/[callId]/confirm-upload`
(`src/app/api/calls/[callId]/confirm-upload/route.ts`), sequential semantics:
verify session, `s3Key`, call existence and participant membership; reject a
duplicate upload with 409; otherwise create the `AudioUpload` row with status
`PENDING`, re-query the upload count, and when `count >= participants.length`
set the call status to `PROCESSING` and trigger `processCall` in the
background.  The route performs no check of the call's own status. -/
def confirmUpload (ocall : Option Call) (ouser : Option String) (okey : Option String) :
    ConfirmResult :=
  match ouser with
  | none => ⟨ocall, ConfirmOutcome.unauthorized, false⟩
  | some uid =>
    match okey with
    | none => ⟨ocall, ConfirmOutcome.missingKey, false⟩
    | some key =>
      match ocall with
      | none => ⟨none, ConfirmOutcome.notFound, false⟩
      | some call =>
        if !(call.participants.any (fun p => p.userId == uid)) then
          ⟨some call, ConfirmOutcome.forbidden, false⟩
        else if call.audioUploads.any (fun u => u.userId == uid) then
          ⟨some call, ConfirmOutcome.alreadyUploaded, false⟩
        else
          let newUploads := call.audioUploads ++ [⟨uid, key, UploadStatus.PENDING⟩]
          let ready := newUploads.length ≥ call.participants.length
          if ready then
            ⟨some { call with audioUploads := newUploads, status := CallStatus.PROCESSING },
             ConfirmOutcome.ok true, true⟩
          else
            ⟨some { call with audioUploads := newUploads },
             ConfirmOutcome.ok false, false⟩

/-- Success flags and result data for the external collaborators used by
`processCall`: S3 downloads, the audio merge, the S3 upload of the merged
artifact, and the Deepgram transcription. -/
structure ExternalEnv where
  fetchOk : Bool
  mergeOk : Bool
  putOk : Bool
  transcribeOk : Bool
  transcript : String
deriving DecidableEq

/-- The `ProcessingResult` returned by `processCall`. -/
structure ProcessingResult where
  success : Bool
  error : Option String
deriving DecidableEq

/-- `generateMergedAudioKey` from `src/lib/s3.ts` (key shape irrelevant to the
claims; only used as the stored `mergedAudioPath`). -/
def generateMergedAudioKey (callId : String) : String :=
  "merged-audio/" ++ callId ++ ".wav"

/-- Set the status of the two uploads found for the caller and callee. -/
def markUploads (c : Call) (uid1 uid2 : String) (st : UploadStatus) : Call :=
  { c with audioUploads :=
      c.audioUploads.map (fun u =>
        if u.userId == uid1 || u.userId == uid2 then { u with status := st } else u) }

/-- `processCall` from `src/lib/services/callProcessing.ts`.  Mirrors the
source's control flow: load the call; throw unless its status is `PROCESSING`
or `AWAITING_UPLOADS`; throw unless at least 2 uploads exist; set status
`PROCESSING`; resolve caller/callee participants and their uploads; mark the
uploads `PROCESSING`; download, merge, upload merged audio, transcribe; create
the `CallSummary` row; set status `COMPLETED` with the merged audio path; mark
the uploads `COMPLETED`.  The catch-all error handler sets the call status to
`FAILED` (when the call row exists) and returns `success := false`. -/
def processCall (env : ExternalEnv) (ocall : Option Call) :
    Option Call × ProcessingResult :=
  match ocall with
  | none => (none, ⟨false, some "Call not found"⟩)
  | some call =>
    if !(call.status == CallStatus.PROCESSING || call.status == CallStatus.AWAITING_UPLOADS) then
      (some { call with status := CallStatus.FAILED },
       ⟨false, some "Invalid call status for processing"⟩)
    else if call.audioUploads.length < 2 then
      (some { call with status := CallStatus.FAILED },
       ⟨false, some "Not enough audio uploads"⟩)
    else
      let c1 := { call with status := CallStatus.PROCESSING }
      match c1.participants.find? (fun p => p.role == "caller"),
            c1.participants.find? (fun p => p.role == "callee") with
      | some cp, some ep =>
        match c1.audioUploads.find? (fun u => u.userId == cp.userId),
              c1.audioUploads.find? (fun u => u.userId == ep.userId) with
        | some _, some _ =>
          let c2 := markUploads c1 cp.userId ep.userId UploadStatus.PROCESSING
          if !env.fetchOk then
            (some { c2 with status := CallStatus.FAILED },
             ⟨false, some "Failed to download audio"⟩)
          else if !env.mergeOk then
            (some { c2 with status := CallStatus.FAILED },
             ⟨false, some "Failed to merge audio"⟩)
          else if !env.putOk then
            (some { c2 with status := CallStatus.FAILED },
             ⟨false, some "Failed to upload merged audio"⟩)
          else if !env.transcribeOk then
            (some { c2 with status := CallStatus.FAILED },
             ⟨false, some "Deepgram transcription failed"⟩)
          else
            match c2.summary with
            | some _ =>
              (some { c2 with status := CallStatus.FAILED },
               ⟨false, some "Unique constraint violation on CallSummary"⟩)
            | none =>
              let c3 := { c2 with
                summary := some ⟨env.transcript⟩,
                status := CallStatus.COMPLETED,
                mergedAudioPath := some (generateMergedAudioKey c2.callId) }
              (some (markUploads c3 cp.userId ep.userId UploadStatus.COMPLETED),
               ⟨true, none⟩)
        | _, _ =>
          (some { c1 with status := CallStatus.FAILED },
           ⟨false, some "Could not find audio uploads for both participants"⟩)
      | _, _ =>
        (some { c1 with status := CallStatus.FAILED },
         ⟨false, some "Could not identify caller and callee participants"⟩)

/-- Outcome of POST `/api/calls/[callId]/process`. -/
inductive ProcessOutcome where
  | unauthorized
  | notFound
  | forbidden
  | alreadySummarized
  | insufficientUploads
  | invalidStatus
  | done (result : ProcessingResult)
deriving DecidableEq

/-- The route-level allowlist from `src/app/api/calls/[callId]/process/route.ts`
line 66: statuses from which processing may be (re)triggered. -/
def allowedStatuses : List CallStatus :=
  [CallStatus.AWAITING_UPLOADS, CallStatus.PROCESSING, CallStatus.FAILED]

/-- POST `/api/calls/[callId]/process` (`triggerProcessing`): verify session,
call existence, membership; 409 if a summary already exists; 400 if fewer
than 2 uploads; 400 unless the status is in `allowedStatuses` (which includes
`FAILED`); then run `processCall` and surface its result. -/
def triggerProcessing (env : ExternalEnv) (ocall : Option Call) (ouser : Option String) :
    Option Call × ProcessOutcome :=
  match ouser with
  | none => (ocall, ProcessOutcome.unauthorized)
  | some uid =>
    match ocall with
    | none => (none, ProcessOutcome.notFound)
    | some call =>
      if !(call.participants.any (fun p => p.userId == uid)) then
        (some call, ProcessOutcome.forbidden)
      else
        match call.summary with
        | some _ => (some call, ProcessOutcome.alreadySummarized)
        | none =>
          if call.audioUploads.length < 2 then
            (some call, ProcessOutcome.insufficientUploads)
          else if !(allowedStatuses.contains call.status) then
            (some call, ProcessOutcome.invalidStatus)
          else
            let r := processCall env (some call)
            (r.1, ProcessOutcome.done r.2)

/-- Outcome of POST `/api/calls/[callId]/join`. -/
inductive JoinOutcome where
  | unauthorized
  | notFound
  | notActive
  | joined
deriving DecidableEq

/-- The rejoin path of the join route: clear `leftAt` for the rejoining user. -/
def clearLeftAt (ps : List CallParticipant) (uid : String) : List CallParticipant :=
  ps.map (fun p => if p.userId == uid then { p with leftAt := none } else p)

/-- POST `/api/calls/[callId]/join` (join route in `src/unnamed/part_007`):
404 if the call does not exist, 400 unless status is `IN_PROGRESS`; an
existing participant rejoins (clearing `leftAt`); otherwise the user is added
as a new participant with role `"callee"`.  No participant-count check is
performed. -/
def joinCall (ocall : Option Call) (ouser : Option String) : Option Call × JoinOutcome :=
  match ouser with
  | none => (ocall, JoinOutcome.unauthorized)
  | some uid =>
    match ocall with
    | none => (none, JoinOutcome.notFound)
    | some call =>
      if !(call.status == CallStatus.IN_PROGRESS) then
        (some call, JoinOutcome.notActive)
      else if call.participants.any (fun p => p.userId == uid) then
        (some { call with participants := clearLeftAt call.participants uid },
         JoinOutcome.joined)
      else
        (some { call with participants := call.participants ++ [⟨uid, "callee", none⟩] },
         JoinOutcome.joined)

/-- Outcome of POST `/api/calls`. -/
inductive CreateOutcome where
  | unauthorized
  | conflict
  | created
deriving DecidableEq

/-- POST `/api/calls` (`src/app/api/calls/route.ts`): 409 if a call with this
`callId` exists, otherwise create it with status `IN_PROGRESS` and the current
user as sole participant with role `"caller"`. -/
def createCall (existing : Option Call) (ouser : Option String) (callId : String) :
    Option Call × CreateOutcome :=
  match ouser with
  | none => (existing, CreateOutcome.unauthorized)
  | some uid =>
    match existing with
    | some call => (some call, CreateOutcome.conflict)
    | none =>
      (some ⟨callId, CallStatus.IN_PROGRESS, none, [⟨uid, "caller", none⟩], [], none⟩,
       CreateOutcome.created)

/-- Outbound events of the Socket.IO signaling server (`src/unnamed/part_000`). -/
inductive SocketEvent where
  | me (id : String)
  | callUser (signal : String) (fromId : String) (name : String)
  | callAccepted (signal : String)
  | callEnded
deriving DecidableEq

/-- One delivery: an event emitted to one connected socket. -/
structure Emit where
  target : String
  event : SocketEvent
deriving DecidableEq

/-- `io.to(room).emit(ev)`: deliver `ev` to every connected socket in the room.
Each socket is automatically a member of the room named by its own id, so with
a duplicate-free connection list this delivers to the socket with that id if
it is connected, and to nobody otherwise.  No error is produced either way. -/
def ioTo (active : List String) (room : String) (ev : SocketEvent) : List Emit :=
  (active.filter (fun s => s == room)).map (fun s => ⟨s, ev⟩)

/-- The `callUser` handler: forward `{signal, from, name}` to `data.userToCall`.
Nothing is ever emitted back to the sender. -/
def onCallUser (active : List String) (userToCall signalData fromId name : String) :
    List Emit :=
  ioTo active userToCall (SocketEvent.callUser signalData fromId name)

/-- The `answerCall` handler: forward the answer signal to `data.to`. -/
def onAnswerCall (active : List String) (toId signal : String) : List Emit :=
  ioTo active toId (SocketEvent.callAccepted signal)

/-- The `endCall` handler: forward `callEnded` to `data.to`. -/
def onEndCall (active : List String) (toId : String) : List Emit :=
  ioTo active toId SocketEvent.callEnded

/-- The `disconnect` handler: `socket.broadcast.emit("callEnded")`, i.e. a
`callEnded` event to every connected socket other than the disconnecting one.
The server keeps no pairing state, so the broadcast is unconditional. -/
def onDisconnect (active : List String) (selfId : String) : List Emit :=
  (active.filter (fun s => !(s == selfId))).map (fun s => ⟨s, SocketEvent.callEnded⟩)

/-- Shared state observed by two concurrent confirm-upload requests on one
call: the number of committed `AudioUpload` rows, the expected participant
count, the call status, how many times `processCall` has been triggered, and
each request's response value of `allParticipantsUploaded`. -/
structure RaceState where
  uploads : Nat
  participants : Nat
  status : CallStatus
  invocations : Nat
  result1 : Option Bool
  result2 : Option Bool
deriving DecidableEq

/-- Atomic database steps of the two concurrent confirm-upload requests:
request i first commits its `AudioUpload` insert (`create` i), then performs
its fresh `findMany` count together with the resulting status update and
fire-and-forget `processCall` trigger (`check` i).  Treating the whole
count-and-trigger as one atomic step is generous to the implementation: the
source performs it as several separate awaited queries. -/
inductive RaceStep where
  | create1
  | check1
  | create2
  | check2
deriving DecidableEq

/-- The count-and-trigger step: recount the committed uploads, compare with
the participant count, and on readiness set status `PROCESSING` and invoke
`processCall`; returns the response flag. -/
def applyCheck (s : RaceState) : RaceState × Bool :=
  if s.participants ≤ s.uploads then
    ({ s with status := CallStatus.PROCESSING, invocations := s.invocations + 1 }, true)
  else
    (s, false)

/-- Interpret one atomic step of the interleaving. -/
def raceStep (s : RaceState) : RaceStep → RaceState
  | RaceStep.create1 => { s with uploads := s.uploads + 1 }
  | RaceStep.create2 => { s with uploads := s.uploads + 1 }
  | RaceStep.check1 =>
    let r := applyCheck s
    { r.1 with result1 := some r.2 }
  | RaceStep.check2 =>
    let r := applyCheck s
    { r.1 with result2 := some r.2 }

/-- Run a schedule (an interleaving of the two requests' steps). -/
def runSchedule (init : RaceState) (sched : List RaceStep) : RaceState :=
  sched.foldl raceStep init

/-- A call with 2 expected participants, no uploads yet, awaiting uploads. -/
def initialRaceState : RaceState :=
  ⟨0, 2, CallStatus.AWAITING_UPLOADS, 0, none, none⟩

/-- A speaker-attributed transcript segment (`DeepgramSegment` in
`src/lib/deepgram.ts`); start/stop times in whole seconds. -/
structure DeepgramSegment where
  speaker : String
  channel : Nat
  start : Nat
  stop : Nat
  text : String
deriving DecidableEq

/-- The comparator of `segments.sort((a, b) => a.start - b.start)`. -/
def segLE (a b : DeepgramSegment) : Bool :=
  a.start ≤ b.start

/-- The chronological sort of `transcribeMultichannel`
(`src/lib/deepgram.ts` line 150).  JavaScript `Array.prototype.sort` is
required to be stable, so it is embedded as a stable merge sort. -/
def sortSegments (segs : List DeepgramSegment) : List DeepgramSegment :=
  segs.mergeSort segLE

/-- `padStart(2, "0")` on a decimal number. -/
def pad2 (n : Nat) : String :=
  if n < 10 then "0" ++ toString n else toString n

/-- `formatTimestamp` from `src/lib/deepgram.ts`. -/
def formatTimestamp (seconds : Nat) : String :=
  let hrs := seconds / 3600
  let mins := (seconds % 3600) / 60
  let secs := seconds % 60
  if hrs > 0 then
    toString hrs ++ ":" ++ pad2 mins ++ ":" ++ pad2 secs
  else
    toString mins ++ ":" ++ pad2 secs

/-- One line of the assembled transcript. -/
def transcriptLine (seg : DeepgramSegment) : String :=
  "[" ++ formatTimestamp seg.start ++ "] " ++ seg.speaker ++ ": " ++ seg.text

/-- Transcript assembly (`src/lib/deepgram.ts` lines 149-158): sort the
segments chronologically by start time, format each with a timestamp and
speaker label, and join with blank lines. -/
def buildTranscript (segs : List DeepgramSegment) : String :=
  String.intercalate "\n\n" ((sortSegments segs).map transcriptLine)

/-- The per-call uniqueness invariant backed by the
`AudioUpload_callId_userId_key` index: distinct uploads of a call belong to
distinct users. -/
def uploadsUnique (c : Call) : Prop :=
  c.audioUploads.Pairwise (fun a b => a.userId ≠ b.userId)

/-- An environment in which every external collaborator succeeds. -/
def envOk : ExternalEnv :=
  ⟨true, true, true, true, "transcript"⟩

/-- A call in status `FAILED` with both uploads still present and no summary:
the setup of the spec's retry scenario. -/
def failedCall : Call :=
  ⟨"call-42", CallStatus.FAILED, none,
   [⟨"u1", "caller", none⟩, ⟨"u2", "callee", none⟩],
   [⟨"u1", "a1.webm", UploadStatus.PENDING⟩, ⟨"u2", "a2.webm", UploadStatus.PENDING⟩],
   none⟩

/-- A call awaiting uploads with only one of two uploads present. -/
def awaitingOneUpload : Call :=
  ⟨"call-5", CallStatus.AWAITING_UPLOADS, none,
   [⟨"u1", "caller", none⟩, ⟨"u2", "callee", none⟩],
   [⟨"u1", "a1.webm", UploadStatus.PENDING⟩], none⟩

/-- A completed two-party call with no uploads recorded. -/
def completedCall : Call :=
  ⟨"call-6", CallStatus.COMPLETED, none,
   [⟨"u1", "caller", none⟩, ⟨"u2", "callee", none⟩], [], none⟩

/-- A call where participant `u1` already has an upload. -/
def duplicateAttemptCall : Call :=
  ⟨"call-7", CallStatus.AWAITING_UPLOADS, none,
   [⟨"u1", "caller", none⟩, ⟨"u2", "callee", none⟩],
   [⟨"u1", "k1", UploadStatus.PENDING⟩], none⟩

/-- An in-progress call that already has both a caller and a callee. -/
def twoPartyCall : Call :=
  ⟨"call-8", CallStatus.IN_PROGRESS, none,
   [⟨"u1", "caller", none⟩, ⟨"u2", "callee", none⟩], [], none⟩

/-- A call whose only participant is its creator: no callee ever joined. -/
def soloCall : Call :=
  ⟨"call-10", CallStatus.AWAITING_UPLOADS, none,
   [⟨"u1", "caller", none⟩], [], none⟩

/-- Merge sort of a two-element list: swap exactly when the comparator
rejects the given order. -/
theorem mergeSort_pair {α : Type} (le : α → α → Bool) (a b : α) :
    List.mergeSort [a, b] le = if le a b then [a, b] else [b, a] := by
  rw [List.mergeSort]
  simp [List.splitInTwo, List.merge]

/-- Filtering a duplicate-free list for one of its members yields exactly
that member. -/
theorem filter_beq_of_nodup (l : List String) (t : String)
    (hnd : l.Nodup) (ht : t ∈ l) : l.filter (fun s => s == t) = [t] := by
  induction l with
  | nil => cases ht
  | cons x xs ih =>
    rcases List.nodup_cons.mp hnd with ⟨hx, hxs⟩
    rcases List.mem_cons.mp ht with h | h
    · subst h
      rw [List.filter_cons_of_pos (by simp)]
      rw [List.filter_eq_nil_iff.mpr]
      intro a ha
      simp only [beq_iff_eq]
      rintro rfl
      exact hx ha
    · rw [List.filter_cons_of_neg (by simp; rintro rfl; exact hx h)]
      exact ih hxs h

/-- Filtering for a non-member yields the empty list. -/
theorem filter_beq_of_not_mem (l : List String) (t : String)
    (ht : t ∉ l) : l.filter (fun s => s == t) = [] := by
  rw [List.filter_eq_nil_iff]
  intro a ha
  simp only [beq_iff_eq]
  rintro rfl
  exact ht ha

/-- `io.to` delivers nothing when the target id has no live connection. -/
theorem ioTo_of_not_mem (active : List String) (toId : String) (ev : SocketEvent)
    (h : toId ∉ active) : ioTo active toId ev = [] := by
  unfold ioTo
  rw [filter_beq_of_not_mem active toId h]
  rfl

/-- `io.to` delivers exactly once when the target id is a live connection. -/
theorem ioTo_of_mem (active : List String) (toId : String) (ev : SocketEvent)
    (hnd : active.Nodup) (h : toId ∈ active) : ioTo active toId ev = [⟨toId, ev⟩] := by
  unfold ioTo
  rw [filter_beq_of_nodup active toId hnd h]
  rfl

/-- Appending a fresh user's upload preserves per-user uniqueness. -/
theorem uploadsUnique_append (uploads : List AudioUpload) (uid key : String)
    (huniq : uploads.Pairwise (fun a b => a.userId ≠ b.userId))
    (hfresh : ∀ u ∈ uploads, u.userId ≠ uid) :
    (uploads ++ [⟨uid, key, UploadStatus.PENDING⟩] : List AudioUpload).Pairwise
      (fun a b => a.userId ≠ b.userId) := by
  rw [List.pairwise_append]
  refine ⟨huniq, by simp, ?_⟩
  intro a ha b hb
  rcases List.mem_singleton.mp hb with rfl
  exact hfresh a ha

/-- Claim C1 (code bug).  Two concurrent confirm-upload requests on a call
with two expected participants, interleaved so that both inserts commit
before either readiness recount runs, BOTH report
`allParticipantsUploaded = true` and `processCall` is triggered TWICE — the
spec's exactly-once readiness signal does not hold.  Under the serial
interleaving the claimed behavior (exactly one `ready = true`, one
invocation) does hold, which is what the code's comment intends. -/
theorem race_both_report_ready :
    (runSchedule initialRaceState
      [RaceStep.create1, RaceStep.create2, RaceStep.check1, RaceStep.check2]).result1 =
        some true
    ∧ (runSchedule initialRaceState
      [RaceStep.create1, RaceStep.create2, RaceStep.check1, RaceStep.check2]).result2 =
        some true
    ∧ (runSchedule initialRaceState
      [RaceStep.create1, RaceStep.create2, RaceStep.check1, RaceStep.check2]).invocations = 2
    ∧ (runSchedule initialRaceState
      [RaceStep.create1, RaceStep.check1, RaceStep.create2, RaceStep.check2]).result1 =
        some false
    ∧ (runSchedule initialRaceState
      [RaceStep.create1, RaceStep.check1, RaceStep.create2, RaceStep.check2]).result2 =
        some true
    ∧ (runSchedule initialRaceState
      [RaceStep.create1, RaceStep.check1, RaceStep.create2, RaceStep.check2]).invocations =
        1 := by
  decide

/-- Claim C2 (code bug).  A call in status `FAILED` with both uploads intact
and every external service succeeding passes every route-level check of
POST `/process` (the route's own allowlist includes `FAILED`), yet
`processCall` rejects the `FAILED` status, reports
"Invalid call status for processing", and leaves the call in `FAILED`:
the retry path the spec (and the route) support can never reach
`Completed`. -/
theorem failed_retry_always_fails :
    allowedStatuses.contains failedCall.status = true
    ∧ failedCall.audioUploads.length = 2
    ∧ failedCall.summary = none
    ∧ triggerProcessing envOk (some failedCall) (some "u1") =
        (some failedCall,
         ProcessOutcome.done ⟨false, some "Invalid call status for processing"⟩) := by
  decide

/-- Claim C3, counterexample.  With only `"A"` connected, routing an invite
from `"A"` to the inactive target `"B"` produces no emission at all: the
target receives nothing, and — contrary to the claim — the sender receives
no `TargetUnreachable` (or any other) signal. -/
theorem invite_unreachable_no_error :
    onCallUser ["A"] "B" "sig" "A" "alice" = []
    ∧ ¬ ∃ e ∈ onCallUser ["A"] "B" "sig" "A" "alice", e.target = "A" := by
  decide

/-- Claim C3, amended.  Routing an invite or answer to an inactive target
silently drops the signal: nothing is delivered to anyone, including the
sender (no `TargetUnreachable` report), and nothing is retried; routing to
an active target delivers the forwarded payload to it exactly once. -/
theorem relay_routing_semantics (active : List String) (toId sig fromId name : String)
    (hnd : active.Nodup) :
    (toId ∉ active →
      onCallUser active toId sig fromId name = [] ∧ onAnswerCall active toId sig = [])
    ∧ (toId ∈ active →
      onCallUser active toId sig fromId name = [⟨toId, SocketEvent.callUser sig fromId name⟩]
      ∧ onAnswerCall active toId sig = [⟨toId, SocketEvent.callAccepted sig⟩]) := by
  constructor
  · intro h
    exact ⟨ioTo_of_not_mem active toId _ h, ioTo_of_not_mem active toId _ h⟩
  · intro h
    exact ⟨ioTo_of_mem active toId _ hnd h, ioTo_of_mem active toId _ hnd h⟩

/-- Claim C3, witness for the amended theorem at a concrete relay state. -/
theorem relay_routing_semantics_witness :
    onCallUser ["A", "B"] "B" "s" "A" "n" = [⟨"B", SocketEvent.callUser "s" "A" "n"⟩] :=
  ((relay_routing_semantics ["A", "B"] "B" "s" "A" "n" (by decide)).2 (by decide)).1

/-- Claim C4, counterexample.  With three connected sockets `A`, `B`, `C`
where `A` is in a call with `B`, disconnecting `A` broadcasts `callEnded` to
every other connected socket: the unrelated peer `C` receives it too,
contrary to the claim that only `A`'s paired connections are notified.  (The
server keeps no pairing state, so the broadcast cannot be targeted.) -/
theorem disconnect_reaches_unrelated_peer :
    onDisconnect ["A", "B", "C"] "A" =
      [⟨"B", SocketEvent.callEnded⟩, ⟨"C", SocketEvent.callEnded⟩]
    ∧ Emit.mk "C" SocketEvent.callEnded ∈ onDisconnect ["A", "B", "C"] "A" := by
  decide

/-- Claim C4, amended.  When `A` disconnects, every other connected socket —
the paired peer `B`, but equally every unrelated connected peer — receives
exactly one synthesized `callEnded` event, and `A` itself receives none. -/
theorem disconnect_broadcast_semantics (active : List String) (a b : String)
    (hnd : active.Nodup) (hb : b ∈ active) (hab : b ≠ a) :
    (onDisconnect active a).filter (fun e => e.target == b) = [⟨b, SocketEvent.callEnded⟩]
    ∧ (∀ e ∈ onDisconnect active a, e.event = SocketEvent.callEnded ∧ e.target ≠ a) := by
  constructor
  · unfold onDisconnect
    rw [List.filter_map]
    have h1 : (active.filter (fun s => !(s == a))).Nodup := hnd.filter _
    have h2 : b ∈ active.filter (fun s => !(s == a)) := by
      rw [List.mem_filter]
      exact ⟨hb, by simpa using hab⟩
    have h3 : ((fun e => e.target == b) ∘ fun s => (⟨s, SocketEvent.callEnded⟩ : Emit)) =
        fun s => s == b := rfl
    rw [h3, filter_beq_of_nodup _ _ h1 h2]
    rfl
  · intro e he
    rcases List.mem_map.mp he with ⟨s, hs, rfl⟩
    refine ⟨rfl, ?_⟩
    have := (List.mem_filter.mp hs).2
    simpa using this

/-- Claim C4, witness for the amended theorem at a concrete relay state. -/
theorem disconnect_broadcast_semantics_witness :
    (onDisconnect ["A", "B"] "A").filter (fun e => e.target == "B") =
      [⟨"B", SocketEvent.callEnded⟩] :=
  (disconnect_broadcast_semantics ["A", "B"] "A" "B" (by decide) (by decide) (by decide)).1

/-- Claim C5, counterexample.  Processing a call in `AWAITING_UPLOADS` with
only one upload fails the `InsufficientUploads` precondition, and the
catch-all error handler then rewrites the call status to `FAILED`: state IS
mutated, contrary to the claim that the status is left unchanged. -/
theorem insufficient_uploads_mutates_status :
    awaitingOneUpload.audioUploads.length < 2
    ∧ awaitingOneUpload.status = CallStatus.AWAITING_UPLOADS
    ∧ processCall envOk (some awaitingOneUpload) =
        (some { awaitingOneUpload with status := CallStatus.FAILED },
         ⟨false, some "Not enough audio uploads"⟩)
    ∧ (processCall envOk (some awaitingOneUpload)).1.map Call.status ≠
        some awaitingOneUpload.status := by
  decide

/-- Claim C5, amended.  When a precondition fails — fewer than 2 uploads or
a status invalid for the transition — `processCall` reports the error and
aborts before any pipeline stage (no upload, summary, participant or merged
audio field changes), but the call's status is set to `FAILED` by the error
handler rather than left unchanged. -/
theorem precondition_failure_reports_and_sets_failed (env : ExternalEnv) (call : Call)
    (h : ¬(call.status = CallStatus.PROCESSING ∨ call.status = CallStatus.AWAITING_UPLOADS)
         ∨ call.audioUploads.length < 2) :
    ∃ msg, processCall env (some call) =
      (some { call with status := CallStatus.FAILED }, ⟨false, some msg⟩) := by
  by_cases hs : call.status = CallStatus.PROCESSING ∨ call.status = CallStatus.AWAITING_UPLOADS
  · have hlen : call.audioUploads.length < 2 := by tauto
    refine ⟨"Not enough audio uploads", ?_⟩
    have hb : (call.status == CallStatus.PROCESSING
        || call.status == CallStatus.AWAITING_UPLOADS) = true := by
      rcases hs with h1 | h1 <;> simp [h1]
    simp [processCall, hb, hlen]
  · refine ⟨"Invalid call status for processing", ?_⟩
    push_neg at hs
    have hb : (call.status == CallStatus.PROCESSING
        || call.status == CallStatus.AWAITING_UPLOADS) = false := by
      simp [hs.1, hs.2]
    simp [processCall, hb]

/-- Claim C5, witness for the amended theorem at a concrete call. -/
theorem precondition_failure_witness :
    ∃ msg, processCall envOk (some awaitingOneUpload) =
      (some { awaitingOneUpload with status := CallStatus.FAILED }, ⟨false, some msg⟩) :=
  precondition_failure_reports_and_sets_failed envOk awaitingOneUpload (by decide)

/-- Claim C6, counterexample.  A `COMPLETED` call accepts a first upload
confirmation from a participant: the route performs no status check, so the
request succeeds (`allParticipantsUploaded = false`) and an `AudioUpload`
row IS created, contrary to the claim that it is rejected. -/
theorem completed_call_accepts_upload :
    completedCall.status = CallStatus.COMPLETED
    ∧ (confirmUpload (some completedCall) (some "u1") (some "k1")).outcome =
        ConfirmOutcome.ok false
    ∧ (confirmUpload (some completedCall) (some "u1") (some "k1")).call =
        some { completedCall with audioUploads := [⟨"u1", "k1", UploadStatus.PENDING⟩] } := by
  decide

/-- Claim C6, amended.  `recordUpload` requires only that the call exists,
the requester is a participant, and the participant has no prior upload for
the call; it performs no check of the call's status, so a first upload
confirmation is accepted and an `AudioUpload` row created in EVERY status,
including `COMPLETED` and `FAILED`. -/
theorem confirm_upload_ignores_status (call : Call) (uid key : String)
    (hpart : call.participants.any (fun p => p.userId == uid) = true)
    (hnew : call.audioUploads.any (fun u => u.userId == uid) = false) :
    ∃ c r, confirmUpload (some call) (some uid) (some key) =
        ⟨some c, ConfirmOutcome.ok r, r⟩
      ∧ c.audioUploads = call.audioUploads ++ [⟨uid, key, UploadStatus.PENDING⟩] := by
  by_cases hready : call.participants.length ≤ call.audioUploads.length + 1
  · refine ⟨{ call with
        audioUploads := call.audioUploads ++ [⟨uid, key, UploadStatus.PENDING⟩],
        status := CallStatus.PROCESSING }, true, ?_, rfl⟩
    simp [confirmUpload, hpart, hnew, hready]
  · refine ⟨{ call with
        audioUploads := call.audioUploads ++ [⟨uid, key, UploadStatus.PENDING⟩] },
        false, ?_, rfl⟩
    simp [confirmUpload, hpart, hnew, hready]

/-- Claim C6, witness for the amended theorem at a `COMPLETED` call. -/
theorem confirm_upload_ignores_status_witness :
    ∃ c r, confirmUpload (some completedCall) (some "u1") (some "k1") =
        ⟨some c, ConfirmOutcome.ok r, r⟩
      ∧ c.audioUploads = completedCall.audioUploads ++ [⟨"u1", "k1", UploadStatus.PENDING⟩] :=
  confirm_upload_ignores_status completedCall "u1" "k1" (by decide) (by decide)

/-- Claim C7 (confirmed).  A second confirm-upload attempt by a participant
who already has an upload for the call is rejected with the
`AlreadyUploaded` conflict and leaves the database state — in particular the
first upload's row — entirely unchanged; and `confirmUpload` preserves the
at-most-one-upload-per-(call, participant) invariant backed by the
`AudioUpload_callId_userId_key` uniqueness index. -/
theorem upload_uniqueness (call : Call) (uid key : String) :
    (call.participants.any (fun p => p.userId == uid) = true →
     call.audioUploads.any (fun u => u.userId == uid) = true →
      confirmUpload (some call) (some uid) (some key) =
        ⟨some call, ConfirmOutcome.alreadyUploaded, false⟩)
    ∧ (uploadsUnique call →
        ∀ c, (confirmUpload (some call) (some uid) (some key)).call = some c →
          uploadsUnique c) := by
  constructor
  · intro hpart hdup
    simp [confirmUpload, hpart, hdup]
  · intro huniq c hc
    by_cases hpart : call.participants.any (fun p => p.userId == uid) = true
    · by_cases hdup : call.audioUploads.any (fun u => u.userId == uid) = true
      · simp [confirmUpload, hpart, hdup] at hc
        rw [← hc]
        exact huniq
      · have hfresh : ∀ u ∈ call.audioUploads, u.userId ≠ uid := by
          intro u hu
          have := List.any_eq_false.mp (Bool.not_eq_true _ ▸ hdup) u hu
          simpa using this
        by_cases hready : call.participants.length ≤ call.audioUploads.length + 1
        · simp [confirmUpload, hpart, hdup, hready] at hc
          rw [← hc]
          exact uploadsUnique_append call.audioUploads uid key huniq hfresh
        · simp [confirmUpload, hpart, hdup, hready] at hc
          rw [← hc]
          exact uploadsUnique_append call.audioUploads uid key huniq hfresh
    · simp [confirmUpload, hpart] at hc
      rw [← hc]
      exact huniq

/-- Claim C7, witness: the duplicate attempt on a concrete call is rejected
with the conflict and the state is unchanged. -/
theorem upload_uniqueness_witness :
    confirmUpload (some duplicateAttemptCall) (some "u1") (some "k2") =
      ⟨some duplicateAttemptCall, ConfirmOutcome.alreadyUploaded, false⟩ :=
  (upload_uniqueness duplicateAttemptCall "u1" "k2").1 (by decide) (by decide)

/-- Claim C8, counterexample.  The join route enforces no participant cap:
on an `IN_PROGRESS` call that already has a caller and a callee, a third
distinct user joins successfully and becomes a third participant, contrary
to the claim that a call has at most 2 participants. -/
theorem third_user_joins :
    twoPartyCall.participants.length = 2
    ∧ (joinCall (some twoPartyCall) (some "u3")).2 = JoinOutcome.joined
    ∧ (joinCall (some twoPartyCall) (some "u3")).1.map (fun c => c.participants.length) =
        some 3
    ∧ (joinCall (some twoPartyCall) (some "u3")).1.map
        (fun c => c.participants.map CallParticipant.userId) = some ["u1", "u2", "u3"] := by
  decide

/-- Claim C8, amended.  The creator becomes the sole participant with role
`caller`; any further signed-in user may join an `IN_PROGRESS` call and is
added with role `callee` — with NO cap on the participant count, so a third
distinct user can also become a participant; an existing participant rejoins
with `leftAt` cleared and no new row; and joining preserves the
`(callId, userId)` participant-uniqueness invariant (no duplicate-join). -/
theorem participant_management (call : Call) (uid cid creator : String)
    (hs : call.status = CallStatus.IN_PROGRESS) :
    ((createCall none (some creator) cid).1 =
       some ⟨cid, CallStatus.IN_PROGRESS, none, [⟨creator, "caller", none⟩], [], none⟩)
    ∧ (call.participants.any (fun p => p.userId == uid) = false →
        (joinCall (some call) (some uid)).1 =
          some { call with participants := call.participants ++ [⟨uid, "callee", none⟩] })
    ∧ (call.participants.any (fun p => p.userId == uid) = true →
        (joinCall (some call) (some uid)).1 =
          some { call with participants := clearLeftAt call.participants uid }
        ∧ (clearLeftAt call.participants uid).length = call.participants.length)
    ∧ (call.participants.Pairwise (fun p q => p.userId ≠ q.userId) →
        ∀ c, (joinCall (some call) (some uid)).1 = some c →
          c.participants.Pairwise (fun p q => p.userId ≠ q.userId)) := by
  refine ⟨rfl, ?_, ?_, ?_⟩
  · intro hnew
    simp [joinCall, hs, hnew]
  · intro hmem
    exact ⟨by simp [joinCall, hs, hmem], by simp [clearLeftAt]⟩
  · intro huniq c hc
    by_cases hmem : call.participants.any (fun p => p.userId == uid) = true
    · simp [joinCall, hs, hmem] at hc
      rw [← hc]
      simp only [clearLeftAt]
      rw [List.pairwise_map]
      have huid : ∀ p : CallParticipant,
          (if p.userId == uid then { p with leftAt := none } else p).userId = p.userId := by
        intro p
        split <;> rfl
      refine huniq.imp ?_
      intro a b hab
      rw [huid a, huid b]
      exact hab
    · simp [joinCall, hs, hmem] at hc
      rw [← hc]
      rw [List.pairwise_append]
      refine ⟨huniq, by simp, ?_⟩
      intro a ha b hb
      rcases List.mem_singleton.mp hb with rfl
      have := List.any_eq_false.mp (Bool.not_eq_true _ ▸ hmem) a ha
      simpa using this

/-- Claim C8, witness for the amended theorem: a third user joining the
concrete two-party call is appended as a callee. -/
theorem participant_management_witness :
    (joinCall (some twoPartyCall) (some "u3")).1 =
      some { twoPartyCall with
               participants := twoPartyCall.participants ++ [⟨"u3", "callee", none⟩] } :=
  (participant_management twoPartyCall "u3" "c" "u0" (by decide)).2.1 (by decide)

/-- Claim C9 (confirmed).  Transcript assembly sorts the speaker-attributed
segments chronologically by start time with a stable sort: the output is a
permutation of the emitted segments, pairwise ordered by start time, any two
segments emitted in order whose start times do not force a swap (in
particular, ties) keep their original relative order — segments are never
reordered by speaker — and on the spec's example
`[{spk A, start 5, "x"}, {spk B, start 2, "y"}]` the assembled transcript
places B's segment before A's. -/
theorem transcript_ordering :
    (∀ segs : List DeepgramSegment, (sortSegments segs).Perm segs)
    ∧ (∀ segs : List DeepgramSegment,
        (sortSegments segs).Pairwise (fun a b => a.start ≤ b.start))
    ∧ (∀ (segs : List DeepgramSegment) (a b : DeepgramSegment),
        List.Sublist [a, b] segs → a.start ≤ b.start →
          List.Sublist [a, b] (sortSegments segs))
    ∧ sortSegments [⟨"A", 0, 5, 9, "x"⟩, ⟨"B", 1, 2, 4, "y"⟩] =
        [⟨"B", 1, 2, 4, "y"⟩, ⟨"A", 0, 5, 9, "x"⟩]
    ∧ buildTranscript [⟨"A", 0, 5, 9, "x"⟩, ⟨"B", 1, 2, 4, "y"⟩] =
        "[0:02] B: y\n\n[0:05] A: x" := by
  have htrans : ∀ a b c : DeepgramSegment, segLE a b → segLE b c → segLE a c := by
    intro a b c hab hbc
    simp only [segLE, decide_eq_true_eq] at hab hbc ⊢
    omega
  have htotal : ∀ a b : DeepgramSegment, segLE a b || segLE b a := by
    intro a b
    simp only [segLE, Bool.or_eq_true, decide_eq_true_eq]
    omega
  refine ⟨?_, ?_, ?_, ?_, ?_⟩
  · intro segs
    exact List.mergeSort_perm segs segLE
  · intro segs
    have h := List.sorted_mergeSort htrans htotal segs
    refine h.imp ?_
    intro a b hab
    simpa [segLE] using hab
  · intro segs a b hsub hle
    exact List.pair_sublist_mergeSort htrans htotal (by simpa [segLE] using hle) hsub
  · simp [sortSegments, mergeSort_pair, segLE]
  · simp only [buildTranscript, sortSegments, mergeSort_pair, segLE]
    rfl

/-- Claim C9, witness: the stability conjunct applied to a concrete,
already-ordered pair of segments. -/
theorem transcript_ordering_witness :
    List.Sublist
      [DeepgramSegment.mk "B" 1 2 4 "y", DeepgramSegment.mk "A" 0 5 9 "x"]
      (sortSegments [⟨"B", 1, 2, 4, "y"⟩, ⟨"A", 0, 5, 9, "x"⟩]) :=
  transcript_ordering.2.2.1
    [⟨"B", 1, 2, 4, "y"⟩, ⟨"A", 0, 5, 9, "x"⟩]
    ⟨"B", 1, 2, 4, "y"⟩ ⟨"A", 0, 5, 9, "x"⟩
    (List.Sublist.refl _) (by decide)

/-- Claim C10 (confirmed).  On a call whose recorded participant count is 1
(no callee ever joined), that participant's first confirm-upload already
reports `allParticipantsUploaded = true` — readiness compares the upload
count against the current participant count, not against the constant 2 —
and fire-and-forget triggers `processCall`, which then fails with
"Not enough audio uploads" and marks the call `FAILED`. -/
theorem single_participant_ready_and_pipeline_fails (call : Call)
    (p : CallParticipant) (key : String) (env : ExternalEnv)
    (hp : call.participants = [p]) (hu : call.audioUploads = []) :
    (confirmUpload (some call) (some p.userId) (some key)).outcome = ConfirmOutcome.ok true
    ∧ (confirmUpload (some call) (some p.userId) (some key)).processingTriggered = true
    ∧ (processCall env (confirmUpload (some call) (some p.userId) (some key)).call).2 =
        ⟨false, some "Not enough audio uploads"⟩
    ∧ (processCall env (confirmUpload (some call) (some p.userId) (some key)).call).1.map
        Call.status = some CallStatus.FAILED := by
  have hconf : confirmUpload (some call) (some p.userId) (some key) =
      ConfirmResult.mk
        (some { call with
          audioUploads := [AudioUpload.mk p.userId key UploadStatus.PENDING],
          status := CallStatus.PROCESSING })
        (ConfirmOutcome.ok true) true := by
    simp [confirmUpload, hp, hu]
  rw [hconf]
  refine ⟨rfl, rfl, ?_, ?_⟩
  · simp [processCall]
  · simp [processCall]

/-- Claim C10, witness at a concrete one-participant call. -/
theorem single_participant_witness :
    (confirmUpload (some soloCall) (some "u1") (some "k")).outcome = ConfirmOutcome.ok true
    ∧ (confirmUpload (some soloCall) (some "u1") (some "k")).processingTriggered = true
    ∧ (processCall envOk (confirmUpload (some soloCall) (some "u1") (some "k")).call).2 =
        ⟨false, some "Not enough audio uploads"⟩
    ∧ (processCall envOk (confirmUpload (some soloCall) (some "u1") (some "k")).call).1.map
        Call.status = some CallStatus.FAILED :=
  single_participant_ready_and_pipeline_fails soloCall ⟨"u1", "caller", none⟩ "k" envOk
    rfl rfl

end CallApp
